import Mathlib

/-!
Shallow embedding of the agent-daemons runtime: the per-agent reasoning
loop of `agents.py`, the capability table of `tooling.py`, the message
router of `message_router.py`, and the manager lifecycle of `world.py`.

The reasoning backend is modelled as an oracle `Nat → BackendResp`: the
k-th backend call made by an agent returns `oracle k`.  The recursive
reasoning cycle `invoke_llm` is embedded as a structurally recursive
function on an explicit fuel argument; a fuel of `MAX_THINKING_TURNS + 2
- turn` is proved sufficient (and excess fuel irrelevant), which is the
termination statement for the unbounded Python recursion.  A `none`
result marks fuel exhaustion only ever reachable with insufficient fuel.

Python exceptions that are caught by the `try/except` wrapper of
`invoke_llm` (the `KeyError` raised by `available_functions[name]` for an
unknown tool name, and a `json.loads` failure on malformed arguments)
abort exactly the current invocation; this is modelled by the loop
returning the state reached so far.  The `KeyError` raised out of the
router's logging f-string when a message lacks a `from` or `to` key is
modelled by the `raisedKeyError` routing outcome.
-/

namespace AgentWorld

/-- Structured arguments of a requested capability invocation, as read via
`json.loads` plus `function_args.get(...)` in `agents.py`.  A `none` field
models an absent (or null) JSON key. -/
structure ToolArgs where
  location : Option String
  unit : Option String
  id : Option String
  content : Option String
deriving DecidableEq

/-- One capability-invocation request returned by the backend
(`ChatCompletionMessageToolCall`): an id, a function name, and arguments.
`arguments = none` models a payload on which `json.loads` raises. -/
structure ToolCall where
  callId : String
  name : String
  arguments : Option ToolArgs
deriving DecidableEq

/-- A backend response: natural-language content and the (possibly empty)
list of requested capability invocations.  Python's `None`/empty list for
`tool_calls` are both modelled by `[]`, matching the falsy test
`if tool_calls:`. -/
structure BackendResp where
  content : Option String
  tool_calls : List ToolCall
deriving DecidableEq

/-- One turn of a conversation, mirroring the message dictionaries that
`agents.py` appends: `system` (directive), `user` (peer), `assistant`
(self), the raw assistant tool-call message (`response_message.model_dump()`),
and `tool` (capability-result) turns. -/
inductive Msg where
  | system (content : String)
  | user (content : String)
  | assistant (content : Option String)
  | assistantToolCalls (content : Option String) (tool_calls : List ToolCall)
  | tool (tool_call_id : String) (name : String) (content : String)
deriving DecidableEq

/-- Content of an outbound envelope: free text, or (for responses to a
`conversation_history` request) the conversation itself, which the code
places directly in the `content` field. -/
inductive EnvContent where
  | text (s : String)
  | transcript (c : List Msg)
deriving DecidableEq

/-- An outbound envelope placed on the router's inbound channel
(`router_queue.put`): `from`, `to`, `type`, `content`. -/
structure Env where
  sender : String
  dest : String
  kind : String
  content : EnvContent
deriving DecidableEq

/-- The observable state of one agent runtime: its per-peer conversation
map (`conversations`), the envelopes it has put on the router queue, and
the number of backend calls it has made (the oracle index). -/
structure AgentSt where
  convs : List (String × List Msg)
  sent : List Env
  calls : Nat
deriving DecidableEq

/-- Static configuration of one agent: its id, its standing instructions,
and the string representation of the shared registry (what `str(registry)`
would yield for the `get_all_agents` capability). -/
structure AgentCfg where
  agentId : String
  instructions : String
  registryStr : String
deriving DecidableEq

/-- An inbound message drained from the agent's mailbox, as read by
`handle_message`: `from`, `type`, `content`. -/
structure InMsg where
  sender : String
  kind : String
  content : String
deriving DecidableEq

/-- Association-list lookup, modelling Python dict indexing (first — and
in a dict, only — binding of the key wins). -/
def alookup {α : Type} : List (String × α) → String → Option α
  | [], _ => none
  | (k, v) :: rest, key => if k = key then some v else alookup rest key

/-- Association-list update of an existing key in place, modelling
assignment to an existing Python dict key. -/
def aset {α : Type} : List (String × α) → String → α → List (String × α)
  | [], _, _ => []
  | (k, v) :: rest, key, val =>
    if k = key then (k, val) :: rest else (k, v) :: aset rest key val

/-- Association-list deletion, modelling `del d[key]`. -/
def aerase {α : Type} : List (String × α) → String → List (String × α)
  | [], _ => []
  | (k, v) :: rest, key => if k = key then rest else (k, v) :: aerase rest key

/-- The module-level system prompt of `agents.py`, verbatim. -/
def SYSTEM_PROMPT : String :=
  "\nYou are a helpful AI Agent operating in a world with many other entities. These other entites can be other AI agents or humans.\n\n" ++
  "Your goal is to handle incoming requests from other entites, complete them, and communicate accordingly.\n\n" ++
  "You have access to a set of tools:\n\n" ++
  "**get_entities**: This lets you see other entities who you can communicate with.\n\n" ++
  "Entities can be humans or other AI agents, similar to yourself. Every entity has a unique ID for communication.\n\n" ++
  "**send_message**: This lets you send a message to another entity.\n\n" ++
  "Note: The list of entities in the world is dynamic and can change frequently. You should always call get_all_entities before sending a message.\n\n" ++
  "When you send a message to an entity, you\x27ll pause working on your task. If the entity sends a follow up message, your task will continue.\n\n" ++
  "You will continue to work on your task until you send a message.\n\n" ++
  "Here are additional instructions that you should follow:\n\n"

/-- `MAX_THINKING_TURNS` of `agents.py`: the turn bound of the cycle. -/
def MAX_THINKING_TURNS : Nat := 10

/-- The keys of the `available_functions` dictionary in `tooling.py`.
Note these do NOT include `get_entities` or `send_message`, the names the
dispatch chain of `invoke_llm` tests for. -/
def available_functions : List String :=
  ["get_current_weather", "get_all_agents", "send_message_to_user", "send_message_to_agent"]

/-- Render an optional string the way `json.dumps` renders a Python value
that is either `None` or a plain string. -/
def jsonOptStr : Option String → String
  | none => "null"
  | some s => "\"" ++ s ++ "\""

/-- `tooling.get_current_weather`: returns the canned weather JSON. -/
def get_current_weather (location : Option String) (unit : String) : String :=
  "\x7b\"location\": " ++ jsonOptStr location ++
  ", \"temperature\": \"72\", \"unit\": \"" ++ unit ++
  "\", \"forecast\": [\"sunny\", \"windy\"]\x7d"

/-- `tooling.get_all_agents`: returns `str(registry)`, modelled by the
configured registry string. -/
def get_all_agents (registryStr : String) : String := registryStr

/-- The directive turn seeding every conversation: a `system` message whose
content is `SYSTEM_PROMPT + "\n\n" + instructions`. -/
def directiveMsg (instructions : String) : Msg :=
  .system (SYSTEM_PROMPT ++ "\n\n" ++ instructions)

/-- The peer-message template of `invoke_llm`:
`f"You have recieved a message from entity: {id}. The message is {content}"`. -/
def recvTemplate (cid content : String) : String :=
  "You have recieved a message from entity: " ++ cid ++ ". The message is " ++ content

/-- `get_conversation` of `agents.py`: returns the conversation for a peer,
creating it seeded with the directive turn if absent (a mutation of the
conversation map). -/
def get_conversation (instructions cid : String) (st : AgentSt) : List Msg × AgentSt :=
  match alookup st.convs cid with
  | some c => (c, st)
  | none =>
    ([directiveMsg instructions],
      { st with convs := st.convs ++ [(cid, [directiveMsg instructions])] })

/-- `update_conversation` of `agents.py`: appends a turn, creating the
conversation seeded with the directive turn if absent. -/
def update_conversation (instructions cid : String) (m : Msg) (st : AgentSt) : AgentSt :=
  match alookup st.convs cid with
  | some c => { st with convs := aset st.convs cid (c ++ [m]) }
  | none => { st with convs := st.convs ++ [(cid, [directiveMsg instructions, m])] }

/-- Python's `function_response or "None"`: falsy values (`None`, the empty
string) are replaced by the string `"None"`. -/
def strOrNone : Option String → String
  | none => "None"
  | some s => if s = "" then "None" else s

/-- The three sequential `if function_name == ...` tests in the tool loop of
`invoke_llm`, run after the `available_functions[function_name]` lookup has
succeeded.  Returns the updated `(function_response, tool_called, task_wip,
state)`.  The `get_entities` and `send_message` branches are unreachable in
the real code: those names are not keys of `available_functions`, so the
lookup raises `KeyError` first; their bodies model the calls the code
would make. -/
def dispatch_tool (cfg : AgentCfg) (name : String) (args : ToolArgs) (fr : Option String)
    (tool_called task_wip : Bool) (st : AgentSt) :
    Option String × Bool × Bool × AgentSt :=
  let p1 : Option String × Bool :=
    if name = "get_current_weather" then
      (some (get_current_weather args.location (args.unit.getD "fahrenheit")), true)
    else (fr, tool_called)
  let p2 : Option String × Bool :=
    if name = "get_entities" then (some (get_all_agents cfg.registryStr), true) else p1
  if name = "send_message" then
    (none, true, false,
      { st with sent := st.sent ++
          [{ sender := cfg.agentId, dest := args.id.getD "", kind := "chat",
             content := .text (args.content.getD "") }] })
  else (p2.1, p2.2, task_wip, st)

/-- The `for tool_call in tool_calls:` loop of `invoke_llm`.  `re` is the
recursive re-entry `invoke_llm(thinking_turn + 1, conversation_id, "")`.
A tool name missing from `available_functions`, or malformed arguments,
raises inside the `try` of the current invocation and aborts it with the
state reached so far (`some st`).  Note the loop never breaks: after a
tool call it continues with the remaining requests, threading the stale
`tool_called`, `task_wip` and `function_response` variables exactly as the
Python locals are threaded. -/
def run_tool_loop (cfg : AgentCfg) (oracle : Nat → BackendResp) (cid : String)
    (re : AgentSt → Option AgentSt) :
    List ToolCall → Bool → Bool → Option String → AgentSt → Option AgentSt
  | [] => fun _ _ _ st => some st
  | tc :: rest => fun tool_called task_wip fr st =>
    if tc.name ∈ available_functions then
      match tc.arguments with
      | none => some st
      | some args =>
        match dispatch_tool cfg tc.name args fr tool_called task_wip st with
        | (fr2, tool_called2, task_wip2, st2) =>
          if tool_called2 then
            let st3 := update_conversation cfg.instructions cid
              (.tool tc.callId tc.name (strOrNone fr2)) st2
            let resp := oracle st3.calls
            let st4 := { st3 with calls := st3.calls + 1 }
            let st5 := update_conversation cfg.instructions cid
              (.assistant resp.content) st4
            if task_wip2 then
              match re st5 with
              | none => none
              | some st6 => run_tool_loop cfg oracle cid re rest tool_called2 task_wip2 fr2 st6
            else
              run_tool_loop cfg oracle cid re rest tool_called2 task_wip2 fr2 st5
          else
            let st3 := update_conversation cfg.instructions cid
              (.assistant (some ("I tried to call a tool called " ++ tc.name ++
                ", but it was not available"))) st2
            match re st3 with
            | none => none
            | some st4 => run_tool_loop cfg oracle cid re rest tool_called2 task_wip2 fr2 st4
    else some st

/-- `invoke_llm` of `agents.py`, fuelled.  Each recursive re-entry uses
turn `turn + 1` and one unit less fuel; `none` marks fuel exhaustion,
which is proved unreachable for fuel at least `MAX_THINKING_TURNS + 2 -
turn`.  The body mirrors the source line by line: the turn-bound guard;
the templated peer append for non-empty content; the (mutating)
`get_conversation` evaluated as the `messages` argument; the backend call;
then either the tool loop or the plain-reply branch, which appends the
reply as an assistant turn and re-enters the cycle. -/
def invoke_llm (cfg : AgentCfg) (oracle : Nat → BackendResp) :
    Nat → Nat → String → String → AgentSt → Option AgentSt
  | 0 => fun _ _ _ _ => none
  | fuel + 1 => fun turn cid content st =>
    if MAX_THINKING_TURNS < turn then some st
    else
      let st1 := if content = "" then st else
        update_conversation cfg.instructions cid (.user (recvTemplate cid content)) st
      let st2 := (get_conversation cfg.instructions cid st1).2
      let resp := oracle st2.calls
      let st3 := { st2 with calls := st2.calls + 1 }
      if resp.tool_calls = [] then
        let st4 := update_conversation cfg.instructions cid (.assistant resp.content) st3
        invoke_llm cfg oracle fuel (turn + 1) cid "" st4
      else
        let st4 := update_conversation cfg.instructions cid (.user content) st3
        let st5 := update_conversation cfg.instructions cid
          (.assistantToolCalls resp.content resp.tool_calls) st4
        run_tool_loop cfg oracle cid
          (fun s => invoke_llm cfg oracle fuel (turn + 1) cid "" s)
          resp.tool_calls false true none st5

/-- `handle_message` of `agents.py`: `ping` yields one `ack` envelope with
a timestamp and touches no conversation; `conversation_history` answers
with the requester's conversation (created seeded with the directive turn
if absent); `chat` runs the reasoning cycle seeded with turn counter 1
(fuel `MAX_THINKING_TURNS + 1` is the sufficient fuel for turn 1). -/
def handle_message (cfg : AgentCfg) (oracle : Nat → BackendResp) (timestamp : String)
    (msg : InMsg) (st : AgentSt) : AgentSt :=
  if msg.kind = "ping" then
    { st with sent := st.sent ++
        [{ sender := cfg.agentId, dest := msg.sender, kind := "ack",
           content := .text ("Ack at " ++ timestamp) }] }
  else if msg.kind = "conversation_history" then
    let r := get_conversation cfg.instructions msg.sender st
    { r.2 with sent := r.2.sent ++
        [{ sender := cfg.agentId, dest := msg.sender, kind := "chat",
           content := .transcript r.1 }] }
  else if msg.kind = "chat" then
    (invoke_llm cfg oracle (MAX_THINKING_TURNS + 1) 1 msg.sender msg.content st).getD st
  else st

/-- Whether a turn is the directive (`system`) turn. -/
def isDirective : Msg → Bool
  | .system _ => true
  | _ => false

/-- The non-directive turns of a transcript. -/
def nonDirectiveTurns (c : List Msg) : List Msg :=
  c.filter fun m => !(isDirective m)

/-- Number of assistant (`self`) turns in a conversation. -/
def countAssistantTurns (c : List Msg) : Nat :=
  (c.filter fun m => match m with | .assistant _ => true | _ => false).length

/-- Number of `tool` (capability-result) turns in a conversation. -/
def countToolTurns (c : List Msg) : Nat :=
  (c.filter fun m => match m with | Msg.tool _ _ _ => true | _ => false).length

/-- A message consumed by the router, viewed through the fields
`_route_message` touches: whether the dict has a `from` key, and the `to`
key, called `dest` here (`none` = key absent, `some none` = key present
holding `None`, `some (some s)` = key present holding the string `s`). -/
structure RouterMsg where
  hasFrom : Bool
  dest : Option (Option String)
deriving DecidableEq

/-- The delivery state owned by the router: the user sink and one mailbox
per registered agent identifier (canonical UUID string). -/
structure RouterSt where
  userQueue : List RouterMsg
  agentQueues : List (String × List RouterMsg)
deriving DecidableEq

/-- The observable outcome of one `_route_message` dispatch: a delivery,
a logged error, or the `KeyError` the logging f-string raises when the
message lacks a `from` or `to` key. -/
inductive RouteLog where
  | sentUser
  | sentAgent (id : String)
  | errNotFound (id : String)
  | errInvalid
  | errNoTarget
  | raisedKeyError
deriving DecidableEq

/-- `MessageRouter._route_message`.  `parse` abstracts
`uuid.UUID(str(target))`: `none` when that raises `ValueError`, otherwise
the canonical identifier used as the mailbox key.  The initial
`raisedKeyError` cases model the `message["from"]`/`message["to"]`
subscripts in the logging f-string, evaluated before `message.get("to")`;
an empty-string target is falsy in Python and so takes the
no-target-specified branch. -/
def route_message (parse : String → Option String) (msg : RouterMsg) (rs : RouterSt) :
    RouterSt × RouteLog :=
  if msg.hasFrom = false then (rs, .raisedKeyError)
  else
    match msg.dest with
    | none => (rs, .raisedKeyError)
    | some target =>
      match target with
      | none => (rs, .errNoTarget)
      | some s =>
        if s = "" then (rs, .errNoTarget)
        else if s = "user" then
          ({ rs with userQueue := rs.userQueue ++ [msg] }, .sentUser)
        else
          match parse s with
          | none => (rs, .errInvalid)
          | some u =>
            match alookup rs.agentQueues u with
            | none => (rs, .errNotFound u)
            | some q =>
              ({ rs with agentQueues := aset rs.agentQueues u (q ++ [msg]) }, .sentAgent u)

/-- The manager state `kill_agent` operates on: the registry (entries
modelled opaquely as strings), the mailbox map shared with the router, and
the list of spawned agent processes. -/
structure WorldSt where
  registry : List (String × String)
  agentQueues : List (String × List RouterMsg)
  agentProcesses : List String
deriving DecidableEq

/-- `WorldManager.kill_agent` of `world.py`.  `del self.registry[id]` runs
first and raises `KeyError` (modelled by `none`) when the id has no
registry entry — in particular on a second kill of the same agent.
Otherwise the registry entry is removed, and if the id is a spawned
process it is terminated, dropped from the process list, and its mailbox
(if present) is deleted. -/
def kill_agent (id : String) (w : WorldSt) : Option WorldSt :=
  match alookup w.registry id with
  | none => none
  | some _ =>
    let w1 : WorldSt := { w with registry := aerase w.registry id }
    if id ∈ w1.agentProcesses then
      some { w1 with
        agentProcesses := w1.agentProcesses.erase id,
        agentQueues :=
          if (alookup w1.agentQueues id).isSome then aerase w1.agentQueues id
          else w1.agentQueues }
    else some w1

/-- The state reached in the body of `invoke_llm` just before the backend
call: the templated peer turn appended when content is non-empty, then the
(mutating) `get_conversation` evaluated as the `messages` argument. -/
def plain_pre (cfg : AgentCfg) (cid content : String) (st : AgentSt) : AgentSt :=
  (get_conversation cfg.instructions cid
    (if content = "" then st else
      update_conversation cfg.instructions cid (.user (recvTemplate cid content)) st)).2

/-- The state after one plain-reply (no tool calls) step of `invoke_llm`:
one backend call made and its reply appended as a single assistant turn. -/
def plain_post (cfg : AgentCfg) (oracle : Nat → BackendResp) (cid content : String)
    (st : AgentSt) : AgentSt :=
  update_conversation cfg.instructions cid
    (.assistant (oracle (plain_pre cfg cid content st).calls).content)
    { plain_pre cfg cid content st with calls := (plain_pre cfg cid content st).calls + 1 }

/-- The conversation invariant: every conversation in the map is non-empty
and starts with the directive turn synthesized from the agent's standing
instructions. -/
def ConvInv (instructions : String) (convs : List (String × List Msg)) : Prop :=
  ∀ p ∈ convs, p.2 ≠ [] ∧ p.2.head? = some (directiveMsg instructions)

instance (instructions : String) (convs : List (String × List Msg)) :
    Decidable (ConvInv instructions convs) :=
  inferInstanceAs (Decidable (∀ p ∈ convs, p.2 ≠ [] ∧ p.2.head? = some (directiveMsg instructions)))

/-- Conversation maps only ever grow by appending turns: every conversation
present before is still present afterwards, extended by a (possibly empty)
suffix. -/
def ConvExt (a b : List (String × List Msg)) : Prop :=
  ∀ cid c, alookup a cid = some c → ∃ d, alookup b cid = some (c ++ d)

/-- Total number of messages sitting in the router's queues. -/
def total_queued (rs : RouterSt) : Nat :=
  rs.userQueue.length + (rs.agentQueues.map (fun p => p.2.length)).sum

/-- Whether a routing outcome is an error report (no delivery). -/
def isErrLog : RouteLog → Bool
  | .errNotFound _ => true
  | .errInvalid => true
  | .errNoTarget => true
  | .raisedKeyError => true
  | _ => false

/-- The conversation produced by one chat exchange against a backend that
always replies `reply1` plainly: the directive turn, the templated peer
turn, and `MAX_THINKING_TURNS` assistant turns. -/
def histConv (cfg : AgentCfg) (P msg1 reply1 : String) : List Msg :=
  directiveMsg cfg.instructions :: Msg.user (recvTemplate P msg1) ::
    List.replicate MAX_THINKING_TURNS (Msg.assistant (some reply1))

/-- Concrete fixture: an agent configuration. -/
def cfg0 : AgentCfg := { agentId := "A", instructions := "", registryStr := "reg" }

/-- Concrete fixture: a fresh agent state. -/
def st0 : AgentSt := { convs := [], sent := [], calls := 0 }

/-- Concrete fixture: a backend that always answers with plain text. -/
def oracle0 : Nat → BackendResp := fun _ => { content := some "ok", tool_calls := [] }

/-- Concrete fixture: a backend that always answers the plain reply
`"reply1"` with no capability requests. -/
def oracleR : Nat → BackendResp := fun _ => { content := some "reply1", tool_calls := [] }

/-- Concrete fixture: a backend whose first response requests a capability
named `frobnicate`, which is not a key of `available_functions`. -/
def oracleC4 : Nat → BackendResp := fun _ =>
  { content := none,
    tool_calls := [{ callId := "c1", name := "frobnicate", arguments := none }] }

/-- Concrete fixture: a request for the declared terminal capability
`send_message_to_agent` followed by a `get_current_weather` request. -/
def tcs5 : List ToolCall :=
  [{ callId := "c1", name := "send_message_to_agent",
     arguments := some { location := none, unit := none,
                         id := some "u-2", content := some "hello there" } },
   { callId := "c2", name := "get_current_weather",
     arguments := some { location := some "Seattle", unit := none,
                         id := none, content := none } }]

/-- Concrete fixture: a backend whose first response requests the declared
terminal capability `send_message_to_agent` followed by
`get_current_weather`, and thereafter answers plainly. -/
def oracle5 : Nat → BackendResp := fun k =>
  if k = 0 then { content := none, tool_calls := tcs5 }
  else { content := some "done", tool_calls := [] }

/-- The conversation produced by running a cycle turn on fixture `oracle5`
at turn `MAX_THINKING_TURNS` (so each re-entry abandons immediately): the
`send_message_to_agent` request is dispatched to the no-tool-available
branch and the cycle re-enters, after which `get_current_weather` still
executes.  No envelope is ever emitted. -/
def c5conv : List Msg :=
  [directiveMsg "", Msg.user (recvTemplate "p" "hi"), Msg.user "hi",
   Msg.assistantToolCalls none tcs5,
   Msg.assistant (some "I tried to call a tool called send_message_to_agent, but it was not available"),
   Msg.tool "c2" "get_current_weather" (get_current_weather (some "Seattle") "fahrenheit"),
   Msg.assistant (some "done")]

/-- The conversation left behind when the backend requests the unknown
capability `frobnicate`: the cycle aborts via `KeyError` right after
appending the raw peer turn and the assistant tool-call turn — no
unavailability turn is appended and the cycle is not re-entered. -/
def c4conv : List Msg :=
  [directiveMsg "", Msg.user (recvTemplate "p" "hi"), Msg.user "hi",
   Msg.assistantToolCalls none [{ callId := "c1", name := "frobnicate", arguments := none }]]

/-- Concrete fixture: a parser recognising the canonical identifier `a1`. -/
def parse0 : String → Option String := fun s => if s = "a1" then some "a1" else none

/-- Concrete fixture: a router state with one registered mailbox `a1`. -/
def rs0 : RouterSt := { userQueue := [], agentQueues := [("a1", [])] }

/-- Concrete fixture: a well-formed message addressed to agent `a1`. -/
def rmsg0 : RouterMsg := { hasFrom := true, dest := some (some "a1") }

/-- Concrete fixture: a world with the user and one spawned agent `a1`. -/
def w0 : WorldSt :=
  { registry := [("u0", "human"), ("a1", "agent")],
    agentQueues := [("u0", []), ("a1", [])],
    agentProcesses := ["a1"] }

section AssocLemmas

variable {α : Type}

theorem alookup_aset_self {l : List (String × α)} {k : String} {c : α} (v : α)
    (h : alookup l k = some c) : alookup (aset l k v) k = some v := by
  induction l with
  | nil => simp [alookup] at h
  | cons p rest ih =>
    obtain ⟨k1, v1⟩ := p
    by_cases hk : k1 = k
    · simp [alookup, aset, hk]
    · simp only [alookup, aset, if_neg hk] at h ⊢
      exact ih h

theorem alookup_aset_ne {l : List (String × α)} {k k2 : String} (v : α)
    (h : k2 ≠ k) : alookup (aset l k v) k2 = alookup l k2 := by
  induction l with
  | nil => simp [aset]
  | cons p rest ih =>
    obtain ⟨k1, v1⟩ := p
    by_cases hk : k1 = k
    · subst hk
      simp only [aset, if_pos rfl, alookup]
      rw [if_neg (fun hh => h hh.symm), if_neg (fun hh => h hh.symm)]
    · simp only [aset, if_neg hk, alookup]
      by_cases hk2 : k1 = k2 <;> simp [hk2, ih]

theorem alookup_append_some {l l2 : List (String × α)} {k : String} {v : α}
    (h : alookup l k = some v) : alookup (l ++ l2) k = some v := by
  induction l with
  | nil => simp [alookup] at h
  | cons p rest ih =>
    obtain ⟨k1, v1⟩ := p
    by_cases hk : k1 = k
    · simp [alookup, hk] at h ⊢; exact h
    · simp only [alookup, if_neg hk, List.cons_append] at h ⊢
      exact ih h

theorem alookup_append_none {l l2 : List (String × α)} {k : String}
    (h : alookup l k = none) : alookup (l ++ l2) k = alookup l2 k := by
  induction l with
  | nil => simp
  | cons p rest ih =>
    obtain ⟨k1, v1⟩ := p
    by_cases hk : k1 = k
    · simp [alookup, hk] at h
    · simp only [alookup, if_neg hk, List.cons_append] at h ⊢
      exact ih h

theorem alookup_some_mem {l : List (String × α)} {k : String} {v : α}
    (h : alookup l k = some v) : (k, v) ∈ l := by
  induction l with
  | nil => simp [alookup] at h
  | cons p rest ih =>
    obtain ⟨k1, v1⟩ := p
    by_cases hk : k1 = k
    · subst hk
      simp [alookup] at h
      simp [h]
    · simp only [alookup, if_neg hk] at h
      exact List.mem_cons_of_mem _ (ih h)

theorem mem_aset {l : List (String × α)} {k : String} {v : α} {p : String × α}
    (h : p ∈ aset l k v) : p ∈ l ∨ p = (k, v) := by
  induction l with
  | nil => simp [aset] at h
  | cons q rest ih =>
    obtain ⟨k1, v1⟩ := q
    by_cases hk : k1 = k
    · simp only [aset, if_pos hk] at h
      rcases List.mem_cons.mp h with h1 | h1
      · right; rw [h1, hk]
      · left; exact List.mem_cons_of_mem _ h1
    · simp only [aset, if_neg hk] at h
      rcases List.mem_cons.mp h with h1 | h1
      · left; simp [h1]
      · rcases ih h1 with h2 | h2
        · left; exact List.mem_cons_of_mem _ h2
        · right; exact h2

theorem alookup_eq_none {l : List (String × α)} {k : String}
    (h : k ∉ l.map Prod.fst) : alookup l k = none := by
  induction l with
  | nil => rfl
  | cons p rest ih =>
    obtain ⟨k1, v1⟩ := p
    simp only [List.map_cons, List.mem_cons] at h
    push_neg at h
    simp only [alookup]
    rw [if_neg (fun hh => h.1 hh.symm)]
    exact ih h.2

theorem alookup_aerase {l : List (String × α)} {k : String}
    (h : (l.map Prod.fst).Nodup) : alookup (aerase l k) k = none := by
  induction l with
  | nil => rfl
  | cons p rest ih =>
    obtain ⟨k1, v1⟩ := p
    simp only [List.map_cons, List.nodup_cons] at h
    by_cases hk : k1 = k
    · subst hk
      simp only [aerase, if_pos rfl]
      exact alookup_eq_none h.1
    · simp only [aerase, if_neg hk, alookup, if_neg hk]
      exact ih h.2

end AssocLemmas

theorem plain_pre_single (cfg : AgentCfg) (P : String) (conv : List Msg)
    (sent : List Env) (calls : Nat) :
    plain_pre cfg P "" { convs := [(P, conv)], sent := sent, calls := calls } =
      { convs := [(P, conv)], sent := sent, calls := calls } := by
  simp [plain_pre, get_conversation, alookup]

/-- One plain-reply step of the reasoning cycle: when the backend returns
no capability requests, `invoke_llm` appends exactly one assistant turn
and re-enters itself at the next turn with empty content. -/
theorem invoke_plain_step (cfg : AgentCfg) (oracle : Nat → BackendResp) (fuel turn : Nat)
    (cid content : String) (st : AgentSt)
    (h1 : turn ≤ MAX_THINKING_TURNS)
    (h2 : (oracle (plain_pre cfg cid content st).calls).tool_calls = []) :
    invoke_llm cfg oracle (fuel + 1) turn cid content st =
      invoke_llm cfg oracle fuel (turn + 1) cid "" (plain_post cfg oracle cid content st) := by
  have hng : ¬ (MAX_THINKING_TURNS < turn) := by omega
  simp only [plain_pre] at h2
  simp only [invoke_llm, if_neg hng, plain_post, plain_pre, h2, if_pos]

/-- One tool-branch step of the reasoning cycle: when the backend returns
capability requests, `invoke_llm` appends the raw peer content and the
assistant tool-call turn and enters the tool loop, with re-entry
`invoke_llm` at the next turn. -/
theorem invoke_tool_step (cfg : AgentCfg) (oracle : Nat → BackendResp) (fuel turn : Nat)
    (cid content : String) (st : AgentSt)
    (h1 : turn ≤ MAX_THINKING_TURNS)
    (h2 : (oracle (plain_pre cfg cid content st).calls).tool_calls ≠ []) :
    invoke_llm cfg oracle (fuel + 1) turn cid content st =
      run_tool_loop cfg oracle cid (fun s => invoke_llm cfg oracle fuel (turn + 1) cid "" s)
        (oracle (plain_pre cfg cid content st).calls).tool_calls false true none
        (update_conversation cfg.instructions cid
          (.assistantToolCalls (oracle (plain_pre cfg cid content st).calls).content
            (oracle (plain_pre cfg cid content st).calls).tool_calls)
          (update_conversation cfg.instructions cid (.user content)
            { plain_pre cfg cid content st with
                calls := (plain_pre cfg cid content st).calls + 1 })) := by
  have hng : ¬ (MAX_THINKING_TURNS < turn) := by omega
  simp only [plain_pre] at h2
  simp only [invoke_llm, if_neg hng, plain_pre, if_neg h2]

theorem invoke_plain_tail (cfg : AgentCfg) (oracle : Nat → BackendResp) (r : String)
    (P : String) (c0 : Nat)
    (hor : ∀ k, c0 ≤ k → oracle k = { content := some r, tool_calls := [] }) :
    ∀ (n turn : Nat) (conv : List Msg) (sent : List Env) (calls : Nat),
      c0 ≤ calls → turn + n = MAX_THINKING_TURNS + 1 →
      invoke_llm cfg oracle (n + 1) turn P ""
          { convs := [(P, conv)], sent := sent, calls := calls } =
        some { convs := [(P, conv ++ List.replicate n (Msg.assistant (some r)))],
               sent := sent, calls := calls + n } := by
  intro n
  induction n with
  | zero =>
    intro turn conv sent calls hc ht
    have hgt : MAX_THINKING_TURNS < turn := by omega
    simp [invoke_llm, if_pos hgt]
  | succ n ih =>
    intro turn conv sent calls hc ht
    have h1 : turn ≤ MAX_THINKING_TURNS := by omega
    have hpre := plain_pre_single cfg P conv sent calls
    have h2 : (oracle (plain_pre cfg P ""
        { convs := [(P, conv)], sent := sent, calls := calls }).calls).tool_calls = [] := by
      rw [hpre]
      simp [hor calls hc]
    rw [invoke_plain_step cfg oracle (n + 1) turn P "" _ h1 h2]
    have hpost : plain_post cfg oracle P ""
        { convs := [(P, conv)], sent := sent, calls := calls } =
        { convs := [(P, conv ++ [Msg.assistant (some r)])], sent := sent,
          calls := calls + 1 } := by
      simp only [plain_post, hpre]
      simp [update_conversation, alookup, aset, hor calls hc]
    rw [hpost, ih (turn + 1) (conv ++ [Msg.assistant (some r)]) sent (calls + 1)
      (by omega) (by omega)]
    simp [List.append_assoc, List.replicate_succ]
    omega

theorem run_tool_loop_congr (cfg : AgentCfg) (oracle : Nat → BackendResp) (cid : String)
    (re re2 : AgentSt → Option AgentSt) (hre : ∀ s, re s = re2 s) :
    ∀ (l : List ToolCall) (a b : Bool) (fr : Option String) (st : AgentSt),
      run_tool_loop cfg oracle cid re l a b fr st =
        run_tool_loop cfg oracle cid re2 l a b fr st := by
  intro l
  induction l with
  | nil => intro a b fr st; rfl
  | cons tc rest ih =>
    intro a b fr st
    simp only [run_tool_loop, hre, ih]

theorem run_tool_loop_isSome (cfg : AgentCfg) (oracle : Nat → BackendResp) (cid : String)
    (re : AgentSt → Option AgentSt) (hre : ∀ s, (re s).isSome) :
    ∀ (l : List ToolCall) (a b : Bool) (fr : Option String) (st : AgentSt),
      (run_tool_loop cfg oracle cid re l a b fr st).isSome := by
  intro l
  induction l with
  | nil => intro a b fr st; simp [run_tool_loop]
  | cons tc rest ih =>
    intro a b fr st
    simp only [run_tool_loop]
    split
    · split
      · simp
      · split
        · split
          · split
            · next heq => exact absurd heq (Option.ne_none_iff_isSome.mpr (hre _))
            · exact ih _ _ _ _
          · exact ih _ _ _ _
        · split
          · next heq => exact absurd heq (Option.ne_none_iff_isSome.mpr (hre _))
          · exact ih _ _ _ _
    · simp

theorem invoke_isSome (cfg : AgentCfg) (oracle : Nat → BackendResp) (cid : String) :
    ∀ (fuel turn : Nat) (content : String) (st : AgentSt), 1 ≤ fuel →
      MAX_THINKING_TURNS + 2 ≤ fuel + turn →
      (invoke_llm cfg oracle fuel turn cid content st).isSome := by
  intro fuel
  induction fuel with
  | zero => intro turn content st h1 h2; omega
  | succ fuel ih =>
    intro turn content st h1 h2
    by_cases hgt : MAX_THINKING_TURNS < turn
    · simp [invoke_llm, if_pos hgt]
    · simp only [invoke_llm, if_neg hgt]
      by_cases hc : content = ""
      · simp only [if_pos hc]
        split
        · exact ih (turn + 1) "" _ (by omega) (by omega)
        · exact run_tool_loop_isSome cfg oracle cid _
            (fun s => ih (turn + 1) "" s (by omega) (by omega)) _ _ _ _ _
      · simp only [if_neg hc]
        split
        · exact ih (turn + 1) "" _ (by omega) (by omega)
        · exact run_tool_loop_isSome cfg oracle cid _
            (fun s => ih (turn + 1) "" s (by omega) (by omega)) _ _ _ _ _

theorem invoke_stable (cfg : AgentCfg) (oracle : Nat → BackendResp) (cid : String) :
    ∀ (fuel fuel2 turn : Nat) (content : String) (st : AgentSt), 1 ≤ fuel →
      MAX_THINKING_TURNS + 2 ≤ fuel + turn → fuel ≤ fuel2 →
      invoke_llm cfg oracle fuel turn cid content st =
        invoke_llm cfg oracle fuel2 turn cid content st := by
  intro fuel
  induction fuel with
  | zero => intro fuel2 turn content st h1 h2 h3; omega
  | succ fuel ih =>
    intro fuel2 turn content st h1 h2 h3
    obtain ⟨f2, rfl⟩ : ∃ f2, fuel2 = f2 + 1 := ⟨fuel2 - 1, by omega⟩
    by_cases hgt : MAX_THINKING_TURNS < turn
    · simp [invoke_llm, if_pos hgt]
    · simp only [invoke_llm, if_neg hgt]
      by_cases hc : content = ""
      · simp only [if_pos hc]
        split
        · exact ih f2 (turn + 1) "" _ (by omega) (by omega) (by omega)
        · exact run_tool_loop_congr cfg oracle cid _ _
            (fun s => ih f2 (turn + 1) "" s (by omega) (by omega) (by omega)) _ false true none _
      · simp only [if_neg hc]
        split
        · exact ih f2 (turn + 1) "" _ (by omega) (by omega) (by omega)
        · exact run_tool_loop_congr cfg oracle cid _ _
            (fun s => ih f2 (turn + 1) "" s (by omega) (by omega) (by omega)) _ false true none _

theorem update_conversation_calls (I cid : String) (m : Msg) (st : AgentSt) :
    (update_conversation I cid m st).calls = st.calls := by
  cases h : alookup st.convs cid <;> simp [update_conversation, h]

theorem update_conversation_sent (I cid : String) (m : Msg) (st : AgentSt) :
    (update_conversation I cid m st).sent = st.sent := by
  cases h : alookup st.convs cid <;> simp [update_conversation, h]

theorem get_conversation_calls (I cid : String) (st : AgentSt) :
    (get_conversation I cid st).2.calls = st.calls := by
  cases h : alookup st.convs cid <;> simp [get_conversation, h]

theorem get_conversation_sent (I cid : String) (st : AgentSt) :
    (get_conversation I cid st).2.sent = st.sent := by
  cases h : alookup st.convs cid <;> simp [get_conversation, h]

theorem plain_pre_calls (cfg : AgentCfg) (cid content : String) (st : AgentSt) :
    (plain_pre cfg cid content st).calls = st.calls := by
  by_cases hc : content = "" <;>
    simp [plain_pre, hc, get_conversation_calls, update_conversation_calls]

theorem plain_pre_sent (cfg : AgentCfg) (cid content : String) (st : AgentSt) :
    (plain_pre cfg cid content st).sent = st.sent := by
  by_cases hc : content = "" <;>
    simp [plain_pre, hc, get_conversation_sent, update_conversation_sent]

/-- One complete reasoning cycle for one chat message against a backend
that always replies plainly: the cycle runs all ten turns, appending the
templated peer turn once and one assistant turn per turn, and abandons at
turn eleven. -/
theorem chat_run (cfg : AgentCfg) (P msg1 reply1 : String) (h : msg1 ≠ "") :
    invoke_llm cfg (fun _ => { content := some reply1, tool_calls := [] })
        (MAX_THINKING_TURNS + 1) 1 P msg1 { convs := [], sent := [], calls := 0 } =
      some { convs := [(P, histConv cfg P msg1 reply1)], sent := [], calls := 10 } := by
  have hpre : plain_pre cfg P msg1 { convs := [], sent := [], calls := 0 } =
      { convs := [(P, [directiveMsg cfg.instructions, Msg.user (recvTemplate P msg1)])],
        sent := [], calls := 0 } := by
    simp [plain_pre, if_neg h, update_conversation, get_conversation, alookup]
  have h2 : (((fun _ => { content := some reply1, tool_calls := [] }) : Nat → BackendResp)
      (plain_pre cfg P msg1 { convs := [], sent := [], calls := 0 }).calls).tool_calls = [] := rfl
  rw [invoke_plain_step cfg _ MAX_THINKING_TURNS 1 P msg1 _ (by decide) h2]
  have hpost : plain_post cfg (fun _ => { content := some reply1, tool_calls := [] }) P msg1
      { convs := [], sent := [], calls := 0 } =
      { convs := [(P, [directiveMsg cfg.instructions, Msg.user (recvTemplate P msg1),
          Msg.assistant (some reply1)])], sent := [], calls := 1 } := by
    simp only [plain_post, hpre]
    simp [update_conversation, alookup, aset]
  rw [hpost]
  rw [show (MAX_THINKING_TURNS : Nat) = 9 + 1 from rfl]
  rw [invoke_plain_tail cfg _ reply1 P 0 (fun k _ => rfl) 9 2
    [directiveMsg cfg.instructions, Msg.user (recvTemplate P msg1), Msg.assistant (some reply1)]
    [] 1 (by omega) (by decide)]
  simp [histConv, MAX_THINKING_TURNS]

/-- The full round trip: one chat message answered by a plainly-replying
backend, followed by a history request from the same peer.  The history
response carries the whole conversation, whose shape is `histConv`. -/
theorem history_run (cfg : AgentCfg) (P msg1 reply1 ts1 ts2 : String) (h : msg1 ≠ "") :
    handle_message cfg (fun _ => { content := some reply1, tool_calls := [] }) ts2
        { sender := P, kind := "conversation_history", content := "" }
        (handle_message cfg (fun _ => { content := some reply1, tool_calls := [] }) ts1
          { sender := P, kind := "chat", content := msg1 }
          { convs := [], sent := [], calls := 0 }) =
      { convs := [(P, histConv cfg P msg1 reply1)],
        sent := [{ sender := cfg.agentId, dest := P, kind := "chat",
                   content := .transcript (histConv cfg P msg1 reply1) }],
        calls := 10 } := by
  have h1 : handle_message cfg (fun _ => { content := some reply1, tool_calls := [] }) ts1
      { sender := P, kind := "chat", content := msg1 } { convs := [], sent := [], calls := 0 } =
      { convs := [(P, histConv cfg P msg1 reply1)], sent := [], calls := 10 } := by
    simp only [handle_message]
    rw [chat_run cfg P msg1 reply1 h]
    simp
  rw [h1]
  simp only [handle_message]
  simp [get_conversation, alookup]

theorem head?_append_of_some {β : Type} {l l2 : List β} {x : β} (h : l.head? = some x) :
    (l ++ l2).head? = some x := by
  cases l with
  | nil => simp at h
  | cons a t => simpa using h

theorem ConvExt_refl (a : List (String × List Msg)) : ConvExt a a :=
  fun _ c hc => ⟨[], by simp [hc]⟩

theorem ConvExt_trans {a b c : List (String × List Msg)}
    (h1 : ConvExt a b) (h2 : ConvExt b c) : ConvExt a c := by
  intro cid x hx
  obtain ⟨d1, hd1⟩ := h1 cid x hx
  obtain ⟨d2, hd2⟩ := h2 cid (x ++ d1) hd1
  exact ⟨d1 ++ d2, by rw [hd2, List.append_assoc]⟩

theorem update_conversation_inv (I cid : String) (m : Msg) (st : AgentSt)
    (h : ConvInv I st.convs) : ConvInv I (update_conversation I cid m st).convs := by
  intro p hp
  cases hcl : alookup st.convs cid with
  | none =>
    simp only [update_conversation, hcl] at hp
    rcases List.mem_append.mp hp with h1 | h1
    · exact h p h1
    · simp only [List.mem_singleton] at h1
      refine ⟨by simp [h1], by simp [h1]⟩
  | some c =>
    simp only [update_conversation, hcl] at hp
    rcases mem_aset hp with h1 | h1
    · exact h p h1
    · have hc := h (cid, c) (alookup_some_mem hcl)
      refine ⟨by simp [h1], ?_⟩
      rw [h1]
      exact head?_append_of_some hc.2

theorem update_conversation_ext (I cid : String) (m : Msg) (st : AgentSt) :
    ConvExt st.convs (update_conversation I cid m st).convs := by
  intro cid2 c2 hc2
  cases hcl : alookup st.convs cid with
  | none =>
    simp only [update_conversation, hcl]
    exact ⟨[], by simp [alookup_append_some hc2]⟩
  | some c =>
    simp only [update_conversation, hcl]
    by_cases hk : cid2 = cid
    · subst hk
      rw [hc2] at hcl
      injection hcl with hcl
      subst hcl
      exact ⟨[m], alookup_aset_self _ hc2⟩
    · exact ⟨[], by simp [alookup_aset_ne _ hk, hc2]⟩

theorem get_conversation_inv (I cid : String) (st : AgentSt)
    (h : ConvInv I st.convs) : ConvInv I (get_conversation I cid st).2.convs := by
  intro p hp
  cases hcl : alookup st.convs cid with
  | none =>
    simp only [get_conversation, hcl] at hp
    rcases List.mem_append.mp hp with h1 | h1
    · exact h p h1
    · simp only [List.mem_singleton] at h1
      refine ⟨by simp [h1], by simp [h1]⟩
  | some c =>
    simp only [get_conversation, hcl] at hp
    exact h p hp

theorem get_conversation_ext (I cid : String) (st : AgentSt) :
    ConvExt st.convs (get_conversation I cid st).2.convs := by
  intro cid2 c2 hc2
  cases hcl : alookup st.convs cid with
  | none =>
    simp only [get_conversation, hcl]
    exact ⟨[], by simp [alookup_append_some hc2]⟩
  | some c =>
    simp only [get_conversation, hcl]
    exact ⟨[], by simp [hc2]⟩

theorem dispatch_tool_convs (cfg : AgentCfg) (name : String) (args : ToolArgs)
    (fr : Option String) (a b : Bool) (st : AgentSt) :
    (dispatch_tool cfg name args fr a b st).2.2.2.convs = st.convs := by
  simp only [dispatch_tool]
  split <;> rfl

theorem nonDirectiveTurns_replicate (n : Nat) (o : Option String) :
    nonDirectiveTurns (List.replicate n (Msg.assistant o)) =
      List.replicate n (Msg.assistant o) := by
  induction n with
  | zero => rfl
  | succ n ih =>
    simp only [List.replicate_succ, nonDirectiveTurns, List.filter_cons, isDirective,
      Bool.not_false, if_true] at ih ⊢
    simp [ih]

theorem nonDirectiveTurns_histConv (cfg : AgentCfg) (P msg1 reply1 : String) :
    nonDirectiveTurns (histConv cfg P msg1 reply1) =
      Msg.user (recvTemplate P msg1) ::
        List.replicate MAX_THINKING_TURNS (Msg.assistant (some reply1)) := by
  have hr := nonDirectiveTurns_replicate MAX_THINKING_TURNS (some reply1)
  simp only [nonDirectiveTurns, histConv, directiveMsg, List.filter_cons, isDirective,
    Bool.not_true, Bool.not_false, if_true, if_false] at hr ⊢
  simp [hr]

theorem update_bump_inv (I cid : String) (m : Msg) (st : AgentSt) (n : Nat)
    (h : ConvInv I st.convs) :
    ConvInv I (update_conversation I cid m { st with calls := n }).convs :=
  update_conversation_inv I cid m { st with calls := n } h

theorem update_bump_ext (I cid : String) (m : Msg) (st : AgentSt) (n : Nat) :
    ConvExt st.convs (update_conversation I cid m { st with calls := n }).convs :=
  update_conversation_ext I cid m { st with calls := n }

theorem run_tool_loop_preserves (cfg : AgentCfg) (oracle : Nat → BackendResp) (cid : String)
    (re : AgentSt → Option AgentSt)
    (hre : ∀ s s2, re s = some s2 → ConvInv cfg.instructions s.convs →
      ConvInv cfg.instructions s2.convs ∧ ConvExt s.convs s2.convs) :
    ∀ (l : List ToolCall) (a b : Bool) (fr : Option String) (st st2 : AgentSt),
      run_tool_loop cfg oracle cid re l a b fr st = some st2 →
      ConvInv cfg.instructions st.convs →
      ConvInv cfg.instructions st2.convs ∧ ConvExt st.convs st2.convs := by
  intro l
  induction l with
  | nil =>
    intro a b fr st st2 hrun hinv
    simp only [run_tool_loop] at hrun
    injection hrun with h
    subst h
    exact ⟨hinv, ConvExt_refl _⟩
  | cons tc rest ih =>
    intro a b fr st st2 hrun hinv
    simp only [run_tool_loop] at hrun
    split at hrun
    · split at hrun
      · injection hrun with h
        subst h
        exact ⟨hinv, ConvExt_refl _⟩
      · next args harg =>
        have hDconv : (dispatch_tool cfg tc.name args fr a b st).2.2.2.convs = st.convs :=
          dispatch_tool_convs cfg tc.name args fr a b st
        have hinvD : ConvInv cfg.instructions
            (dispatch_tool cfg tc.name args fr a b st).2.2.2.convs := by
          rw [hDconv]; exact hinv
        have hextD : ConvExt st.convs (dispatch_tool cfg tc.name args fr a b st).2.2.2.convs := by
          rw [hDconv]; exact ConvExt_refl _
        split at hrun
        · -- tool_called2 = true
          split at hrun
          · -- task_wip2 = true
            split at hrun
            · exact absurd hrun (by simp)
            · next st6 hre6 =>
              obtain ⟨hinv6, hext6⟩ := hre _ _ hre6 (by exact update_bump_inv _ _ _ _ _ (update_conversation_inv _ _ _ _ hinvD))
              obtain ⟨hinv2, hext2⟩ := ih _ _ _ _ _ hrun hinv6
              refine ⟨hinv2, ConvExt_trans (ConvExt_trans ?_ hext6) hext2⟩
              exact ConvExt_trans hextD (ConvExt_trans (update_conversation_ext _ _ _ _) (update_bump_ext _ _ _ _ _))
          · -- task_wip2 = false
            obtain ⟨hinv2, hext2⟩ := ih _ _ _ _ _ hrun (by exact update_bump_inv _ _ _ _ _ (update_conversation_inv _ _ _ _ hinvD))
            refine ⟨hinv2, ConvExt_trans ?_ hext2⟩
            exact ConvExt_trans hextD (ConvExt_trans (update_conversation_ext _ _ _ _) (update_bump_ext _ _ _ _ _))
        · -- tool_called2 = false
          split at hrun
          · exact absurd hrun (by simp)
          · next st4 hre4 =>
            obtain ⟨hinv4, hext4⟩ := hre _ _ hre4 (by exact update_conversation_inv _ _ _ _ hinvD)
            obtain ⟨hinv2, hext2⟩ := ih _ _ _ _ _ hrun hinv4
            refine ⟨hinv2, ConvExt_trans (ConvExt_trans ?_ hext4) hext2⟩
            exact ConvExt_trans hextD (update_conversation_ext _ _ _ _)
    · injection hrun with h
      subst h
      exact ⟨hinv, ConvExt_refl _⟩



theorem invoke_preserves (cfg : AgentCfg) (oracle : Nat → BackendResp) (cid : String) :
    ∀ (fuel turn : Nat) (content : String) (st st2 : AgentSt),
      invoke_llm cfg oracle fuel turn cid content st = some st2 →
      ConvInv cfg.instructions st.convs →
      ConvInv cfg.instructions st2.convs ∧ ConvExt st.convs st2.convs := by
  intro fuel
  induction fuel with
  | zero =>
    intro turn content st st2 hrun hinv
    simp [invoke_llm] at hrun
  | succ fuel ih =>
    intro turn content st st2 hrun hinv
    simp only [invoke_llm] at hrun
    split at hrun
    · injection hrun with h
      subst h
      exact ⟨hinv, ConvExt_refl _⟩
    · by_cases hc : content = ""
      · rw [if_pos hc] at hrun
        have hinvG : ConvInv cfg.instructions (get_conversation cfg.instructions cid st).2.convs :=
          get_conversation_inv _ _ _ hinv
        have hextG : ConvExt st.convs (get_conversation cfg.instructions cid st).2.convs :=
          get_conversation_ext _ _ _
        split at hrun
        · obtain ⟨hinv2, hext2⟩ := ih _ _ _ _ hrun
            (by exact update_bump_inv _ _ _ _ _ hinvG)
          refine ⟨hinv2, ConvExt_trans ?_ hext2⟩
          exact ConvExt_trans hextG (update_bump_ext _ _ _ _ _)
        · obtain ⟨hinv2, hext2⟩ := run_tool_loop_preserves cfg oracle cid _
            (fun s s2 hr hi => ih _ _ s s2 hr hi) _ _ _ _ _ _ hrun
            (by exact update_conversation_inv _ _ _ _ (update_bump_inv _ _ _ _ _ hinvG))
          refine ⟨hinv2, ConvExt_trans ?_ hext2⟩
          exact ConvExt_trans hextG (ConvExt_trans (update_bump_ext _ _ _ _ _)
            (update_conversation_ext _ _ _ _))
      · rw [if_neg hc] at hrun
        have hinvU : ConvInv cfg.instructions
            (update_conversation cfg.instructions cid (Msg.user (recvTemplate cid content)) st).convs :=
          update_conversation_inv _ _ _ _ hinv
        have hextU : ConvExt st.convs
            (update_conversation cfg.instructions cid (Msg.user (recvTemplate cid content)) st).convs :=
          update_conversation_ext _ _ _ _
        have hinvG : ConvInv cfg.instructions (get_conversation cfg.instructions cid
            (update_conversation cfg.instructions cid (Msg.user (recvTemplate cid content)) st)).2.convs :=
          get_conversation_inv _ _ _ hinvU
        have hextG : ConvExt st.convs (get_conversation cfg.instructions cid
            (update_conversation cfg.instructions cid (Msg.user (recvTemplate cid content)) st)).2.convs :=
          ConvExt_trans hextU (get_conversation_ext _ _ _)
        split at hrun
        · obtain ⟨hinv2, hext2⟩ := ih _ _ _ _ hrun
            (by exact update_bump_inv _ _ _ _ _ hinvG)
          refine ⟨hinv2, ConvExt_trans ?_ hext2⟩
          exact ConvExt_trans hextG (update_bump_ext _ _ _ _ _)
        · obtain ⟨hinv2, hext2⟩ := run_tool_loop_preserves cfg oracle cid _
            (fun s s2 hr hi => ih _ _ s s2 hr hi) _ _ _ _ _ _ hrun
            (by exact update_conversation_inv _ _ _ _ (update_bump_inv _ _ _ _ _ hinvG))
          refine ⟨hinv2, ConvExt_trans ?_ hext2⟩
          exact ConvExt_trans hextG (ConvExt_trans (update_bump_ext _ _ _ _ _)
            (update_conversation_ext _ _ _ _))

theorem handle_message_preserves (cfg : AgentCfg) (oracle : Nat → BackendResp)
    (ts : String) (msg : InMsg) (st : AgentSt)
    (hinv : ConvInv cfg.instructions st.convs) :
    ConvInv cfg.instructions (handle_message cfg oracle ts msg st).convs ∧
      ConvExt st.convs (handle_message cfg oracle ts msg st).convs := by
  simp only [handle_message]
  split
  · exact ⟨hinv, ConvExt_refl _⟩
  · split
    · exact ⟨get_conversation_inv _ _ _ hinv, get_conversation_ext _ _ _⟩
    · split
      · cases hrun : invoke_llm cfg oracle (MAX_THINKING_TURNS + 1) 1 msg.sender msg.content st with
        | none => simp [hrun]; exact ⟨hinv, ConvExt_refl _⟩
        | some st2 =>
          simp only [hrun, Option.getD_some]
          exact invoke_preserves cfg oracle msg.sender _ _ _ _ _ hrun hinv
      · exact ⟨hinv, ConvExt_refl _⟩

theorem sum_length_aset (l : List (String × List RouterMsg)) (u : String)
    (q : List RouterMsg) (m : RouterMsg) (h : alookup l u = some q) :
    ((aset l u (q ++ [m])).map (fun p => p.2.length)).sum =
      ((l.map (fun p => p.2.length)).sum) + 1 := by
  induction l with
  | nil => simp [alookup] at h
  | cons p rest ih =>
    obtain ⟨k, v⟩ := p
    by_cases hk : k = u
    · simp only [alookup, if_pos hk] at h
      injection h with h
      subst h
      simp [aset, hk]
      omega
    · simp only [alookup, if_neg hk] at h
      simp [aset, hk, ih h]
      omega

/-- Claim C1: for every inbound chat message and every sequence of backend
responses, the reasoning cycle started by `invoke_llm` terminates.  Any
fuel of at least `MAX_THINKING_TURNS + 2 - turn` yields the same defined
result (the recursion depth is bounded because the turn counter strictly
increases on every re-entry), and once the turn counter exceeds
`MAX_THINKING_TURNS` the cycle abandons silently: it returns the state
unchanged, sending no envelope, appending no turn and making no backend
call. -/
theorem invoke_llm_cycle_terminates (cfg : AgentCfg) (oracle : Nat → BackendResp)
    (cid content : String) (st : AgentSt) (turn fuel fuel2 : Nat) :
    (1 ≤ fuel → MAX_THINKING_TURNS + 2 ≤ fuel + turn → 1 ≤ fuel2 →
      MAX_THINKING_TURNS + 2 ≤ fuel2 + turn →
      invoke_llm cfg oracle fuel turn cid content st =
        invoke_llm cfg oracle fuel2 turn cid content st ∧
      (invoke_llm cfg oracle fuel turn cid content st).isSome) ∧
    (MAX_THINKING_TURNS < turn → 1 ≤ fuel →
      invoke_llm cfg oracle fuel turn cid content st = some st) := by
  constructor
  · intro h1 h2 h3 h4
    constructor
    · rcases le_total fuel fuel2 with h | h
      · exact invoke_stable cfg oracle cid fuel fuel2 turn content st h1 h2 h
      · exact (invoke_stable cfg oracle cid fuel2 fuel turn content st h3 h4 h).symm
    · exact invoke_isSome cfg oracle cid fuel turn content st h1 h2
  · intro hgt h1
    obtain ⟨f, rfl⟩ : ∃ f, fuel = f + 1 := ⟨fuel - 1, by omega⟩
    simp [invoke_llm, if_pos hgt]

/-- Witness for C1 at a concrete input: fuel 11 and 12 agree at turn 1, the
run is defined, and at turn 11 the cycle returns the state unchanged. -/
theorem invoke_llm_cycle_terminates_witness :
    ((1 ≤ 11 ∧ MAX_THINKING_TURNS + 2 ≤ 11 + 1 ∧ 1 ≤ 12 ∧ MAX_THINKING_TURNS + 2 ≤ 12 + 1) ∧
      (invoke_llm cfg0 oracle0 11 1 "p" "hi" st0 = invoke_llm cfg0 oracle0 12 1 "p" "hi" st0 ∧
        (invoke_llm cfg0 oracle0 11 1 "p" "hi" st0).isSome)) ∧
    (MAX_THINKING_TURNS < 11 ∧ invoke_llm cfg0 oracle0 11 11 "p" "hi" st0 = some st0) :=
  ⟨⟨⟨by decide, by decide, by decide, by decide⟩,
    (invoke_llm_cycle_terminates cfg0 oracle0 "p" "hi" st0 1 11 12).1
      (by decide) (by decide) (by decide) (by decide)⟩,
   ⟨by decide, (invoke_llm_cycle_terminates cfg0 oracle0 "p" "hi" st0 11 11 12).2
      (by decide) (by decide)⟩⟩

/-- Counterexample to claim C2 as stated: with a backend that answers the
plain reply `reply1` with no capability requests, the cycle started at
turn 1 on the message `hi` makes ten backend calls and appends ten
assistant turns — not one self turn followed by termination. -/
theorem plain_reply_terminates_cex :
    ((invoke_llm cfg0 (fun _ => { content := some "reply1", tool_calls := [] })
        (MAX_THINKING_TURNS + 1) 1 "p" "hi" { convs := [], sent := [], calls := 0 }).getD
      { convs := [], sent := [], calls := 0 }).calls = 10 ∧
    countAssistantTurns ((alookup ((invoke_llm cfg0
        (fun _ => { content := some "reply1", tool_calls := [] })
        (MAX_THINKING_TURNS + 1) 1 "p" "hi" { convs := [], sent := [], calls := 0 }).getD
      { convs := [], sent := [], calls := 0 }).convs "p").getD []) = 10 := by
  rw [chat_run cfg0 "p" "hi" "reply1" (by decide)]
  exact ⟨rfl, by decide⟩

/-- Claim C2 (amended): on a plain reply (case (a)) the runtime appends
exactly one self turn containing the reply, makes exactly one backend call
for it, emits nothing, and then RE-ENTERS the reasoning cycle at the next
turn with empty new content — it does not terminate the cycle on a plain
reply; the cycle for the message ends only via the turn bound. -/
theorem plain_reply_appends_and_reenters (cfg : AgentCfg) (oracle : Nat → BackendResp)
    (fuel turn : Nat) (cid content : String) (st : AgentSt) (c : List Msg)
    (h1 : turn ≤ MAX_THINKING_TURNS)
    (h2 : (oracle (plain_pre cfg cid content st).calls).tool_calls = [])
    (h3 : alookup (plain_pre cfg cid content st).convs cid = some c) :
    invoke_llm cfg oracle (fuel + 1) turn cid content st =
      invoke_llm cfg oracle fuel (turn + 1) cid "" (plain_post cfg oracle cid content st) ∧
    alookup (plain_post cfg oracle cid content st).convs cid =
      some (c ++ [Msg.assistant (oracle (plain_pre cfg cid content st).calls).content]) ∧
    (plain_post cfg oracle cid content st).calls = st.calls + 1 ∧
    (plain_post cfg oracle cid content st).sent = st.sent := by
  refine ⟨invoke_plain_step cfg oracle fuel turn cid content st h1 h2, ?_, ?_, ?_⟩
  · have h4 : alookup ({ plain_pre cfg cid content st with
        calls := (plain_pre cfg cid content st).calls + 1 } : AgentSt).convs cid = some c := h3
    simp only [plain_post, update_conversation, h4]
    exact alookup_aset_self _ h4
  · simp [plain_post, update_conversation_calls, plain_pre_calls]
  · simp [plain_post, update_conversation_sent, plain_pre_sent]

set_option maxRecDepth 40000 in
/-- Witness for the amended C2 at a concrete input. -/
theorem plain_reply_appends_and_reenters_witness :
    (1 ≤ MAX_THINKING_TURNS ∧
      (oracle0 (plain_pre cfg0 "p" "hi" st0).calls).tool_calls = [] ∧
      alookup (plain_pre cfg0 "p" "hi" st0).convs "p" =
        some [directiveMsg "", Msg.user (recvTemplate "p" "hi")]) ∧
    (invoke_llm cfg0 oracle0 (10 + 1) 1 "p" "hi" st0 =
      invoke_llm cfg0 oracle0 10 (1 + 1) "p" "" (plain_post cfg0 oracle0 "p" "hi" st0) ∧
    alookup (plain_post cfg0 oracle0 "p" "hi" st0).convs "p" =
      some ([directiveMsg "", Msg.user (recvTemplate "p" "hi")] ++
        [Msg.assistant (oracle0 (plain_pre cfg0 "p" "hi" st0).calls).content]) ∧
    (plain_post cfg0 oracle0 "p" "hi" st0).calls = st0.calls + 1 ∧
    (plain_post cfg0 oracle0 "p" "hi" st0).sent = st0.sent) :=
  ⟨⟨by decide, by decide, by decide⟩,
    plain_reply_appends_and_reenters cfg0 oracle0 10 1 "p" "hi" st0
      [directiveMsg "", Msg.user (recvTemplate "p" "hi")]
      (by decide) (by decide) (by decide)⟩

/-- Claim C4 (code bug): when the backend requests a capability whose name
is not a key of `available_functions` (here `frobnicate`; the same happens
for `send_message` and `get_entities`), the lookup
`available_functions[function_name]` raises `KeyError` before the
no-tool-available branch can run: the cycle aborts with only the peer turn
and the raw tool-call turn appended — no unavailable `capability-result`
turn, no re-entry (exactly one backend call was made), contradicting the
claimed (and intended) behavior. -/
theorem unknown_capability_aborts_cycle :
    invoke_llm cfg0 oracleC4 (MAX_THINKING_TURNS + 1) 1 "p" "hi" st0 =
      some { convs := [("p", c4conv)], sent := [], calls := 1 } ∧
    countAssistantTurns c4conv = 0 := by
  exact ⟨by rfl, by decide⟩

/-- Claim C5 (code bug): the backend requests the declared terminal
capability `send_message_to_agent` followed by `get_current_weather`.  The
dispatch chain of `invoke_llm` tests for the name `send_message`, which is
unavailable, so the terminal capability never executes: no envelope is
emitted (`sent = []`), the cycle re-enters, and the `get_current_weather`
request occurring AFTER the terminal one still executes (one `tool` turn).
This contradicts the claim that executing `send_message` stops further
capability calls and suspends — the intended terminal behavior is
unreachable in the code. -/
theorem terminal_capability_never_fires :
    invoke_llm cfg0 oracle5 2 MAX_THINKING_TURNS "p" "hi" st0 =
      some { convs := [("p", c5conv)], sent := [], calls := 2 } ∧
    countToolTurns c5conv = 1 ∧
    Msg.tool "c2" "get_current_weather"
      (get_current_weather (some "Seattle") "fahrenheit") ∈ c5conv := by
  exact ⟨by rfl, by decide, by decide⟩

/-- Claim C3: every well-formed envelope consumed by the router resolves
to exactly one destination: the reserved `user` token goes to the user
sink; a target parsing to a registered mailbox is enqueued into exactly
that mailbox; an unparseable target or one with no registered mailbox is
reported as an error and delivered to no mailbox at all (the router state
is unchanged). -/
theorem router_resolves_destination (parse : String → Option String) (msg : RouterMsg)
    (rs : RouterSt) (s u : String) (q : List RouterMsg)
    (hf : msg.hasFrom = true) (ht : msg.dest = some (some s)) (hs : s ≠ "") :
    (s = "user" → route_message parse msg rs =
      ({ rs with userQueue := rs.userQueue ++ [msg] }, .sentUser)) ∧
    (s ≠ "user" → parse s = none → route_message parse msg rs = (rs, .errInvalid)) ∧
    (s ≠ "user" → parse s = some u → alookup rs.agentQueues u = none →
      route_message parse msg rs = (rs, .errNotFound u)) ∧
    (s ≠ "user" → parse s = some u → alookup rs.agentQueues u = some q →
      route_message parse msg rs =
        ({ rs with agentQueues := aset rs.agentQueues u (q ++ [msg]) }, .sentAgent u)) := by
  refine ⟨?_, ?_, ?_, ?_⟩
  · intro h
    simp [route_message, hf, ht, hs, h]
  · intro h hp
    simp [route_message, hf, ht, hs, h, hp]
  · intro h hp hq
    simp [route_message, hf, ht, hs, h, hp, hq]
  · intro h hp hq
    simp [route_message, hf, ht, hs, h, hp, hq]

/-- Witness for C3 at concrete inputs: a message addressed to the
registered agent `a1` is enqueued into exactly that mailbox. -/
theorem router_resolves_destination_witness :
    (rmsg0.hasFrom = true ∧ rmsg0.dest = some (some "a1") ∧ "a1" ≠ "") ∧
    (("a1" = "user" → route_message parse0 rmsg0 rs0 =
      ({ rs0 with userQueue := rs0.userQueue ++ [rmsg0] }, .sentUser)) ∧
    ("a1" ≠ "user" → parse0 "a1" = none → route_message parse0 rmsg0 rs0 = (rs0, .errInvalid)) ∧
    ("a1" ≠ "user" → parse0 "a1" = some "a1" → alookup rs0.agentQueues "a1" = none →
      route_message parse0 rmsg0 rs0 = (rs0, .errNotFound "a1")) ∧
    ("a1" ≠ "user" → parse0 "a1" = some "a1" → alookup rs0.agentQueues "a1" = some [] →
      route_message parse0 rmsg0 rs0 =
        ({ rs0 with agentQueues := aset rs0.agentQueues "a1" ([] ++ [rmsg0]) }, .sentAgent "a1"))) :=
  ⟨⟨by decide, by decide, by decide⟩,
    router_resolves_destination parse0 rmsg0 rs0 "a1" "a1" []
      (by decide) (by decide) (by decide)⟩

/-- Counterexample to claim C6 as stated (idempotence): killing the
spawned agent `a1` once succeeds, but killing it a second time raises
(`del self.registry[id]` raises `KeyError` on the missing key, modelled by
`none`) — the second call is an error, not a no-op. -/
theorem kill_agent_not_idempotent_cex :
    (kill_agent "a1" w0).isSome = true ∧
    (kill_agent "a1" w0).bind (kill_agent "a1") = none := by
  decide

/-- Claim C6 (amended): for every spawned agent, `kill_agent` removes its
registry entry and its mailbox, and a subsequent envelope addressed to it
is routed as an unresolved destination; but `kill_agent` is NOT
idempotent — a second call raises `KeyError` instead of returning
normally. -/
theorem kill_agent_removes_but_second_kill_raises (w : WorldSt) (id e : String)
    (q : List RouterMsg) (parse : String → Option String) (s : String)
    (uq : List RouterMsg)
    (hr : alookup w.registry id = some e) (hp : id ∈ w.agentProcesses)
    (hq : alookup w.agentQueues id = some q)
    (hnr : (w.registry.map Prod.fst).Nodup) (hnq : (w.agentQueues.map Prod.fst).Nodup)
    (hparse : parse s = some id) (hsu : s ≠ "user") (hse : s ≠ "") :
    kill_agent id w = some { registry := aerase w.registry id,
                             agentQueues := aerase w.agentQueues id,
                             agentProcesses := w.agentProcesses.erase id } ∧
    alookup (aerase w.registry id) id = none ∧
    alookup (aerase w.agentQueues id) id = none ∧
    kill_agent id { registry := aerase w.registry id,
                    agentQueues := aerase w.agentQueues id,
                    agentProcesses := w.agentProcesses.erase id } = none ∧
    route_message parse { hasFrom := true, dest := some (some s) }
        { userQueue := uq, agentQueues := aerase w.agentQueues id } =
      ({ userQueue := uq, agentQueues := aerase w.agentQueues id }, .errNotFound id) := by
  refine ⟨?_, alookup_aerase hnr, alookup_aerase hnq, ?_, ?_⟩
  · simp [kill_agent, hr, hp, hq]
  · simp [kill_agent, alookup_aerase hnr]
  · simp [route_message, hsu, hse, hparse, alookup_aerase hnq]

/-- Witness for the amended C6 at the concrete world `w0`. -/
theorem kill_agent_removes_witness :
    (alookup w0.registry "a1" = some "agent" ∧ "a1" ∈ w0.agentProcesses ∧
      alookup w0.agentQueues "a1" = some [] ∧
      (w0.registry.map Prod.fst).Nodup ∧ (w0.agentQueues.map Prod.fst).Nodup ∧
      parse0 "a1" = some "a1" ∧ "a1" ≠ "user" ∧ "a1" ≠ "") ∧
    (kill_agent "a1" w0 = some { registry := aerase w0.registry "a1",
                                 agentQueues := aerase w0.agentQueues "a1",
                                 agentProcesses := w0.agentProcesses.erase "a1" } ∧
    alookup (aerase w0.registry "a1") "a1" = none ∧
    alookup (aerase w0.agentQueues "a1") "a1" = none ∧
    kill_agent "a1" { registry := aerase w0.registry "a1",
                      agentQueues := aerase w0.agentQueues "a1",
                      agentProcesses := w0.agentProcesses.erase "a1" } = none ∧
    route_message parse0 { hasFrom := true, dest := some (some "a1") }
        { userQueue := [], agentQueues := aerase w0.agentQueues "a1" } =
      ({ userQueue := [], agentQueues := aerase w0.agentQueues "a1" }, .errNotFound "a1")) :=
  ⟨⟨by decide, by decide, by decide, by decide, by decide, by decide, by decide, by decide⟩,
    kill_agent_removes_but_second_kill_raises w0 "a1" "agent" [] parse0 "a1" []
      (by decide) (by decide) (by decide) (by decide) (by decide)
      (by decide) (by decide) (by decide)⟩

/-- Claim C7: a `ping` envelope handled by a live agent yields exactly one
`ack` envelope put on the router's inbound channel, with `from` the
agent's id, `to` the ping's sender, and a timestamp in its content; the
agent's conversation map (and everything else in its state) is left
completely unchanged. -/
theorem ping_ack_no_conversation_mutation (cfg : AgentCfg) (oracle : Nat → BackendResp)
    (ts : String) (msg : InMsg) (st : AgentSt) (h : msg.kind = "ping") :
    handle_message cfg oracle ts msg st =
      { st with sent := st.sent ++
          [Env.mk cfg.agentId msg.sender "ack" (.text ("Ack at " ++ ts))] } := by
  simp [handle_message, h]

/-- Witness for C7 at a concrete ping. -/
theorem ping_ack_no_conversation_mutation_witness :
    (InMsg.mk "s1" "ping" "").kind = "ping" ∧
    handle_message cfg0 oracle0 "t0" (InMsg.mk "s1" "ping" "") st0 =
      { st0 with sent := st0.sent ++
          [Env.mk cfg0.agentId (InMsg.mk "s1" "ping" "").sender "ack"
            (.text ("Ack at " ++ "t0"))] } :=
  ⟨rfl, ping_ack_no_conversation_mutation cfg0 oracle0 "t0" (InMsg.mk "s1" "ping" "") st0 rfl⟩

/-- Claim C8: every conversation in the map is non-empty with the
directive turn (a `system` turn synthesized from the agent's standing
instructions, never peer-supplied) first, and every operation on the map —
`update_conversation`, `get_conversation`, the reasoning cycle
`invoke_llm` and the dispatcher `handle_message` — preserves this
invariant and only ever extends existing conversations by appending, so
the directive turn is never evicted or overwritten. -/
theorem conversation_directive_invariant (cfg : AgentCfg) (oracle : Nat → BackendResp)
    (cid ts content : String) (m : Msg) (msg : InMsg) (st st2 : AgentSt)
    (fuel turn : Nat) (hinv : ConvInv cfg.instructions st.convs) :
    (ConvInv cfg.instructions (update_conversation cfg.instructions cid m st).convs ∧
      ConvExt st.convs (update_conversation cfg.instructions cid m st).convs) ∧
    (ConvInv cfg.instructions (get_conversation cfg.instructions cid st).2.convs ∧
      ConvExt st.convs (get_conversation cfg.instructions cid st).2.convs) ∧
    (invoke_llm cfg oracle fuel turn cid content st = some st2 →
      ConvInv cfg.instructions st2.convs ∧ ConvExt st.convs st2.convs) ∧
    (ConvInv cfg.instructions (handle_message cfg oracle ts msg st).convs ∧
      ConvExt st.convs (handle_message cfg oracle ts msg st).convs) :=
  ⟨⟨update_conversation_inv _ _ _ _ hinv, update_conversation_ext _ _ _ _⟩,
    ⟨get_conversation_inv _ _ _ hinv, get_conversation_ext _ _ _⟩,
    fun hrun => invoke_preserves cfg oracle cid fuel turn content st st2 hrun hinv,
    handle_message_preserves cfg oracle ts msg st hinv⟩

/-- Witness for C8 at a concrete state (the empty conversation map). -/
theorem conversation_directive_invariant_witness :
    ConvInv cfg0.instructions st0.convs ∧
    ((ConvInv cfg0.instructions (update_conversation cfg0.instructions "p" (Msg.user "x") st0).convs ∧
      ConvExt st0.convs (update_conversation cfg0.instructions "p" (Msg.user "x") st0).convs) ∧
    (ConvInv cfg0.instructions (get_conversation cfg0.instructions "p" st0).2.convs ∧
      ConvExt st0.convs (get_conversation cfg0.instructions "p" st0).2.convs) ∧
    (invoke_llm cfg0 oracle0 11 1 "p" "hi" st0 = some st0 →
      ConvInv cfg0.instructions st0.convs ∧ ConvExt st0.convs st0.convs) ∧
    (ConvInv cfg0.instructions (handle_message cfg0 oracle0 "t0" (InMsg.mk "s1" "ping" "") st0).convs ∧
      ConvExt st0.convs (handle_message cfg0 oracle0 "t0" (InMsg.mk "s1" "ping" "") st0).convs)) :=
  ⟨by decide,
    conversation_directive_invariant cfg0 oracle0 "p" "t0" "hi" (Msg.user "x")
      (InMsg.mk "s1" "ping" "") st0 st0 11 1 (by decide)⟩

set_option maxRecDepth 40000 in
/-- Counterexample to claim C9 as stated: after peer `p` sends the single
chat message `msg1` and the backend always answers the plain reply
`reply1`, the history response is not the three-turn transcript
`[directive, peer msg1, self reply1]` the claim demands: the peer turn is
stored wrapped in the receive template and ten self turns are appended. -/
theorem history_roundtrip_cex :
    (handle_message cfg0 (fun _ => { content := some "reply1", tool_calls := [] }) "t2"
        { sender := "p", kind := "conversation_history", content := "" }
        (handle_message cfg0 (fun _ => { content := some "reply1", tool_calls := [] }) "t1"
          { sender := "p", kind := "chat", content := "msg1" }
          { convs := [], sent := [], calls := 0 })).sent ≠
      [Env.mk "A" "p" "chat"
        (.transcript [directiveMsg "", Msg.user "msg1", Msg.assistant (some "reply1")])] := by
  rw [history_run cfg0 "p" "msg1" "reply1" "t1" "t2" (by decide)]
  decide

/-- Claim C9 (amended): after one chat exchange in which the backend
always replies `reply1` plainly, a history request from the same peer
returns the whole conversation, whose non-directive turns are the
template-wrapped peer turn followed by `MAX_THINKING_TURNS` (ten) self
`reply1` turns — not `[peer msg1, self reply1]`. -/
theorem history_roundtrip_amended (cfg : AgentCfg) (P msg1 reply1 ts1 ts2 : String)
    (h : msg1 ≠ "") :
    handle_message cfg (fun _ => { content := some reply1, tool_calls := [] }) ts2
        { sender := P, kind := "conversation_history", content := "" }
        (handle_message cfg (fun _ => { content := some reply1, tool_calls := [] }) ts1
          { sender := P, kind := "chat", content := msg1 }
          { convs := [], sent := [], calls := 0 }) =
      { convs := [(P, histConv cfg P msg1 reply1)],
        sent := [Env.mk cfg.agentId P "chat" (.transcript (histConv cfg P msg1 reply1))],
        calls := 10 } ∧
    nonDirectiveTurns (histConv cfg P msg1 reply1) =
      Msg.user (recvTemplate P msg1) ::
        List.replicate MAX_THINKING_TURNS (Msg.assistant (some reply1)) :=
  ⟨history_run cfg P msg1 reply1 ts1 ts2 h, nonDirectiveTurns_histConv cfg P msg1 reply1⟩

/-- Witness for the amended C9 at concrete inputs. -/
theorem history_roundtrip_amended_witness :
    ("m1" : String) ≠ "" ∧
    (handle_message cfg0 (fun _ => { content := some "r1", tool_calls := [] }) "t2"
        { sender := "p", kind := "conversation_history", content := "" }
        (handle_message cfg0 (fun _ => { content := some "r1", tool_calls := [] }) "t1"
          { sender := "p", kind := "chat", content := "m1" }
          { convs := [], sent := [], calls := 0 }) =
      { convs := [("p", histConv cfg0 "p" "m1" "r1")],
        sent := [Env.mk cfg0.agentId "p" "chat" (.transcript (histConv cfg0 "p" "m1" "r1"))],
        calls := 10 } ∧
    nonDirectiveTurns (histConv cfg0 "p" "m1" "r1") =
      Msg.user (recvTemplate "p" "m1") ::
        List.replicate MAX_THINKING_TURNS (Msg.assistant (some "r1"))) :=
  ⟨by decide, history_roundtrip_amended cfg0 "p" "m1" "r1" "t1" "t2" (by decide)⟩

/-- Counterexample to claim C10 as stated: a message whose dictionary
lacks the `from` key raises `KeyError` out of the routing step (the
logging f-string subscripts `message["from"]` before `message.get("to")`
runs), even though its `to` is perfectly routable. -/
theorem router_missing_key_raises_cex :
    route_message parse0 (RouterMsg.mk false (some (some "user"))) rs0 =
      (rs0, .raisedKeyError) := by
  rfl

/-- Claim C10 (amended): for every message that does carry both a `from`
and a `to` key, the router's dispatch is total: it never raises, delivers
the message to at most one queue (it touches either the user sink or the
agent mailboxes, never both, and adds at most one message overall), on
every reported error it delivers nothing (the state is unchanged), and
each unroutable case is mapped to its error report: a `None` or
empty-string target is reported as no-target-specified, an unparseable
target as an invalid UUID, and a target with no registered mailbox as an
unknown agent — while the `user` token and a registered identifier are
delivered to the user sink and to exactly that mailbox respectively. -/
theorem router_total_when_keys_present (parse : String → Option String) (msg : RouterMsg)
    (rs : RouterSt) (s u : String) (q : List RouterMsg)
    (hf : msg.hasFrom = true) (hd : msg.dest ≠ none) :
    (route_message parse msg rs).2 ≠ .raisedKeyError ∧
    ((route_message parse msg rs).1.userQueue = rs.userQueue ∨
      (route_message parse msg rs).1.agentQueues = rs.agentQueues) ∧
    total_queued (route_message parse msg rs).1 ≤ total_queued rs + 1 ∧
    (isErrLog (route_message parse msg rs).2 = true → (route_message parse msg rs).1 = rs) ∧
    (msg.dest = some none → route_message parse msg rs = (rs, .errNoTarget)) ∧
    (msg.dest = some (some "") → route_message parse msg rs = (rs, .errNoTarget)) ∧
    (msg.dest = some (some s) → s ≠ "" → s ≠ "user" → parse s = none →
      route_message parse msg rs = (rs, .errInvalid)) ∧
    (msg.dest = some (some s) → s ≠ "" → s ≠ "user" → parse s = some u →
      alookup rs.agentQueues u = none →
      route_message parse msg rs = (rs, .errNotFound u)) ∧
    (msg.dest = some (some "user") → route_message parse msg rs =
      ({ rs with userQueue := rs.userQueue ++ [msg] }, .sentUser)) ∧
    (msg.dest = some (some s) → s ≠ "" → s ≠ "user" → parse s = some u →
      alookup rs.agentQueues u = some q →
      route_message parse msg rs =
        ({ rs with agentQueues := aset rs.agentQueues u (q ++ [msg]) }, .sentAgent u)) := by
  have hmain : (route_message parse msg rs).2 ≠ .raisedKeyError ∧
      ((route_message parse msg rs).1.userQueue = rs.userQueue ∨
        (route_message parse msg rs).1.agentQueues = rs.agentQueues) ∧
      total_queued (route_message parse msg rs).1 ≤ total_queued rs + 1 ∧
      (isErrLog (route_message parse msg rs).2 = true →
        (route_message parse msg rs).1 = rs) := by
    obtain ⟨t, ht⟩ : ∃ t, msg.dest = some t := Option.ne_none_iff_exists'.mp hd
    cases t with
    | none => simp [route_message, hf, ht, isErrLog]
    | some s2 =>
      by_cases hs : s2 = ""
      · simp [route_message, hf, ht, hs, isErrLog]
      · by_cases hu : s2 = "user"
        · simp [route_message, hf, ht, hs, hu, isErrLog, total_queued]
          omega
        · cases hp : parse s2 with
          | none => simp [route_message, hf, ht, hs, hu, hp, isErrLog]
          | some u2 =>
            cases hq : alookup rs.agentQueues u2 with
            | none => simp [route_message, hf, ht, hs, hu, hp, hq, isErrLog]
            | some q2 =>
              simp [route_message, hf, ht, hs, hu, hp, hq, isErrLog, total_queued,
                sum_length_aset rs.agentQueues u2 q2 msg hq]
              omega
  refine ⟨hmain.1, hmain.2.1, hmain.2.2.1, hmain.2.2.2, ?_, ?_, ?_, ?_, ?_, ?_⟩
  · intro h
    simp [route_message, hf, h]
  · intro h
    simp [route_message, hf, h]
  · intro h hs hu hp
    simp [route_message, hf, h, hs, hu, hp]
  · intro h hs hu hp hq
    simp [route_message, hf, h, hs, hu, hp, hq]
  · intro h
    simp [route_message, hf, h]
  · intro h hs hu hp hq
    simp [route_message, hf, h, hs, hu, hp, hq]

/-- Witness for the amended C10 at a concrete routable message. -/
theorem router_total_when_keys_present_witness :
    (rmsg0.hasFrom = true ∧ rmsg0.dest ≠ none) ∧
    ((route_message parse0 rmsg0 rs0).2 ≠ .raisedKeyError ∧
    ((route_message parse0 rmsg0 rs0).1.userQueue = rs0.userQueue ∨
      (route_message parse0 rmsg0 rs0).1.agentQueues = rs0.agentQueues) ∧
    total_queued (route_message parse0 rmsg0 rs0).1 ≤ total_queued rs0 + 1 ∧
    (isErrLog (route_message parse0 rmsg0 rs0).2 = true →
      (route_message parse0 rmsg0 rs0).1 = rs0) ∧
    (rmsg0.dest = some none → route_message parse0 rmsg0 rs0 = (rs0, .errNoTarget)) ∧
    (rmsg0.dest = some (some "") → route_message parse0 rmsg0 rs0 = (rs0, .errNoTarget)) ∧
    (rmsg0.dest = some (some "a1") → "a1" ≠ "" → "a1" ≠ "user" → parse0 "a1" = none →
      route_message parse0 rmsg0 rs0 = (rs0, .errInvalid)) ∧
    (rmsg0.dest = some (some "a1") → "a1" ≠ "" → "a1" ≠ "user" → parse0 "a1" = some "a1" →
      alookup rs0.agentQueues "a1" = none →
      route_message parse0 rmsg0 rs0 = (rs0, .errNotFound "a1")) ∧
    (rmsg0.dest = some (some "user") → route_message parse0 rmsg0 rs0 =
      ({ rs0 with userQueue := rs0.userQueue ++ [rmsg0] }, .sentUser)) ∧
    (rmsg0.dest = some (some "a1") → "a1" ≠ "" → "a1" ≠ "user" → parse0 "a1" = some "a1" →
      alookup rs0.agentQueues "a1" = some [] →
      route_message parse0 rmsg0 rs0 =
        ({ rs0 with agentQueues := aset rs0.agentQueues "a1" ([] ++ [rmsg0]) }, .sentAgent "a1"))) :=
  ⟨⟨by decide, by decide⟩,
    router_total_when_keys_present parse0 rmsg0 rs0 "a1" "a1" [] (by decide) (by decide)⟩

end AgentWorld
